import Mathlib

/-
Verification of the GameZoneCentral server (CSE 17 Game Club repository).

Shallow embedding of server/storage.ts (MemStorage and DatabaseStorage) and
the score-submission routes of server/routes.ts.  JavaScript numbers are
modelled as rationals; JS Maps are modelled as insertion-ordered association
lists (Map.set updates an existing key in place, otherwise appends).  Fields
that no claim depends on (timestamps, score ids, password hashes, session
stores) are omitted from the records.
-/

namespace GameClub

/-- Row of the scores table / an element of the MemStorage per-user score
lists: shared/schema.ts scores (id and createdAt omitted). -/
structure Score where
  userId : Nat
  gameId : Nat
  value : ℚ
deriving DecidableEq, Repr

/-- Row of the games catalog: shared/schema.ts games (createdAt omitted). -/
structure Game where
  id : Nat
  type : String
  name : String
deriving DecidableEq, Repr

/-- Row of the users table: shared/schema.ts users, keeping the fields the
game logic reads (id, username, gamesPlayed). -/
structure User where
  id : Nat
  username : String
  gamesPlayed : Nat
deriving DecidableEq, Repr

/-- Guessing-game session object created by startGuessingGame
(storage.ts lines 250-257). -/
structure GuessingState where
  targetNumber : Nat
  attempts : Nat
  maxAttempts : Nat
  previousGuesses : List Nat
  gameOver : Bool
deriving DecidableEq, Repr

/-- Lookup in an insertion-ordered association list (JS Map.get). -/
def getAssoc {α : Type} (m : List (Nat × α)) (k : Nat) : Option α :=
  match m with
  | [] => none
  | p :: rest => if p.1 = k then some p.2 else getAssoc rest k

/-- JS Map.set: update an existing key in place, otherwise append. -/
def setAssoc {α : Type} (m : List (Nat × α)) (k : Nat) (v : α) : List (Nat × α) :=
  match m with
  | [] => [(k, v)]
  | p :: rest => if p.1 = k then (k, v) :: rest else p :: setAssoc rest k v

/-- State of MemStorage: the users, userGames (guessing sessions), scores and
games Maps (storage.ts lines 54-57). -/
structure MemState where
  users : List User
  guessing : List (Nat × GuessingState)
  scores : List (Nat × List Score)
  games : List Game
deriving DecidableEq, Repr

/-- MemStorage.getGameName (storage.ts lines 681-696): static lookup from
game type to display name, defaulting to Unknown Game. -/
def getGameName (t : String) : String :=
  if t = "guessing" then "Guessing Game"
  else if t = "spinwheel" then "Spin Wheel"
  else if t = "redlight" then "Red Light, Green Light"
  else if t = "typeracer" then "Type Racer"
  else if t = "cse17" then "CSE-17 Bread Game"
  else "Unknown Game"

/-- Game id used by MemStorage.recordScore (storage.ts lines 645-662): the id
of the existing catalog entry of that type, or games.size + 1 for the entry
created on demand. -/
def memGameIdFor (st : MemState) (t : String) : Nat :=
  match st.games.find? (fun g => g.type = t) with
  | some g => g.id
  | none => st.games.length + 1

/-- Games catalog after MemStorage.recordScore: unchanged if an entry of the
type exists, otherwise the created entry is appended. -/
def memGamesAfter (st : MemState) (t : String) : List Game :=
  match st.games.find? (fun g => g.type = t) with
  | some _ => st.games
  | none => st.games ++ [⟨st.games.length + 1, t, getGameName t⟩]

/-- MemStorage.recordScore (storage.ts lines 643-678): find or create the
catalog entry, then push a score onto the submitting users list. -/
def memRecordScore (st : MemState) (uid : Nat) (t : String) (v : ℚ) : MemState :=
  { st with
      games := memGamesAfter st t,
      scores := setAssoc st.scores uid
        ((getAssoc st.scores uid).getD [] ++ [⟨uid, memGameIdFor st t, v⟩]) }

/-- The users.set(userId, {...user, gamesPlayed: user.gamesPlayed + 1})
update used by MemStorage on every game start and by spinWheel
(e.g. storage.ts lines 265-271).  Also models the SQL update of
DatabaseStorage.recordScore (lines 980-986). -/
def bumpUsers (us : List User) (uid : Nat) : List User :=
  us.map (fun u => if u.id = uid then { u with gamesPlayed := u.gamesPlayed + 1 } else u)

/-- MemStorage.startGuessingGame (storage.ts lines 246-274); the random
target number is passed in explicitly. -/
def startGuessingGame (st : MemState) (uid : Nat) (targetNumber : Nat) : MemState :=
  let gameState : GuessingState := ⟨targetNumber, 0, 10, [], false⟩
  { st with
      guessing := setAssoc st.guessing uid gameState,
      users := bumpUsers st.users uid }

/-- Response object of makeGuess (storage.ts lines 327-333). -/
structure GuessResponse where
  message : String
  isCorrect : Bool
  attemptsLeft : Int
  previousGuesses : List Nat
  correctNumber : Option Nat
deriving DecidableEq, Repr

/-- MemStorage.makeGuess (storage.ts lines 276-334).  The three error paths
return before any mutation in the source, so an error result leaves the
state unchanged; the ok result carries the updated state. -/
def makeGuess (st : MemState) (uid : Nat) (guess : Nat) :
    Except String (MemState × GuessResponse) :=
  match getAssoc st.guessing uid with
  | none => .error "No active guessing game found"
  | some game =>
    if game.gameOver then .error "Game is already over"
    else if guess ∈ game.previousGuesses then .error "You already tried this number"
    else
      let attempts := game.attempts + 1
      let previousGuesses := game.previousGuesses ++ [guess]
      let targetNumber := game.targetNumber
      let isCorrect := guess = targetNumber
      let message :=
        if guess = targetNumber then "correct"
        else if guess < targetNumber then "too low"
        else "too high"
      let st1 := if guess = targetNumber then memRecordScore st uid "guessing" attempts else st
      let attemptsLeft : Int := (game.maxAttempts : Int) - (attempts : Int)
      let gameOver : Bool := isCorrect || decide (attemptsLeft ≤ 0)
      let game2 : GuessingState :=
        { game with attempts := attempts, previousGuesses := previousGuesses, gameOver := gameOver }
      let st2 := { st1 with guessing := setAssoc st1.guessing uid game2 }
      .ok (st2, ⟨message, isCorrect, attemptsLeft, previousGuesses,
                 if gameOver then some targetNumber else none⟩)

/-- Storage state after a makeGuess call: the ok state, or the unchanged
input state on an error return. -/
def makeGuessState (st : MemState) (uid : Nat) (guess : Nat) : MemState :=
  match makeGuess st uid guess with
  | .ok (st2, _) => st2
  | .error _ => st

/-- State of DatabaseStorage: the users, games and scores tables (the
guessing userGames Map of DatabaseStorage behaves as in MemStorage). -/
structure DbState where
  users : List User
  games : List Game
  scores : List Score
deriving DecidableEq, Repr

/-- DatabaseStorage.getGameIdByType (storage.ts lines 956-967): throws when
the catalog has no entry of the requested type. -/
def dbGetGameIdByType (st : DbState) (t : String) : Except String Nat :=
  match st.games.find? (fun g => g.type = t) with
  | some g => .ok g.id
  | none => .error ("Game type " ++ t ++ " not found")

/-- DatabaseStorage.recordScore (storage.ts lines 970-987): insert the score
row, then increment the submitting users gamesPlayed counter. -/
def dbRecordScore (st : DbState) (uid : Nat) (t : String) (v : ℚ) :
    Except String DbState :=
  match dbGetGameIdByType st t with
  | .error e => .error e
  | .ok gid =>
      .ok { st with
              scores := st.scores ++ [⟨uid, gid, v⟩],
              users := bumpUsers st.users uid }

/-- gamesPlayed counter of a user, read off a users list. -/
def gamesPlayedOf (us : List User) (uid : Nat) : Option Nat :=
  (us.find? (fun u => u.id = uid)).map (fun u => u.gamesPlayed)

/-- Entry of the prize table of spinWheel (storage.ts lines 367-376). -/
structure Prize where
  value : ℚ
  label : String
  probability : ℚ
deriving DecidableEq, Repr

/-- First prize of the wheel; the loop variable selectedPrize is
initialized to prizes[0] (storage.ts line 381). -/
def prize0 : Prize := ⟨100, "100 Points", 1/5⟩

/-- The fixed 8-entry prize table of spinWheel (storage.ts lines 367-376). -/
def prizes : List Prize :=
  [prize0,
   ⟨250, "250 Points", 3/20⟩,
   ⟨500, "500 Points", 1/10⟩,
   ⟨1000, "1000 Points", 1/20⟩,
   ⟨0, "Try Again", 1/4⟩,
   ⟨150, "150 Points", 3/20⟩,
   ⟨750, "750 Points", 1/20⟩,
   ⟨300, "300 Points", 1/20⟩]

/-- The prize-selection loop of spinWheel (storage.ts lines 383-389):
accumulate probabilities and break at the first prize whose accumulated
range contains the draw. -/
def selectLoop (r : ℚ) : List Prize → ℚ → Option Prize
  | [], _ => none
  | p :: ps, acc =>
      let acc2 := acc + p.probability
      if r ≤ acc2 then some p else selectLoop r ps acc2

/-- The prize selected by spinWheel for draw r: the first match of the
loop, falling back to the initial value prizes[0] when no prize matched. -/
def selectedPrize (r : ℚ) : Prize :=
  (selectLoop r prizes 0).getD prize0

/-- Rotation amount computed by spinWheel (storage.ts lines 392-398); r2 is
the second Math.random() draw. -/
def spinDegrees (r r2 : ℚ) : ℚ :=
  let degreesPerPrize : ℚ := 360 / (prizes.length : ℚ)
  1800 + degreesPerPrize * (List.indexOf (selectedPrize r) prizes : ℚ)
    + r2 * (degreesPerPrize * (8/10))

/-- Response object of spinWheel (storage.ts lines 414-418). -/
structure SpinResult where
  prize : String
  value : ℚ
  degrees : ℚ
deriving DecidableEq, Repr

/-- MemStorage.spinWheel (storage.ts lines 365-419): record the score when
the prize has positive value, then always increment gamesPlayed. -/
def memSpinWheel (st : MemState) (uid : Nat) (r r2 : ℚ) : MemState × SpinResult :=
  let p := selectedPrize r
  let st1 := if 0 < p.value then memRecordScore st uid "spinwheel" p.value else st
  let st2 := { st1 with users := bumpUsers st1.users uid }
  (st2, ⟨p.label, p.value, spinDegrees r r2⟩)

/-- DatabaseStorage.spinWheel (storage.ts lines 1107-1152): record the score
(which also increments gamesPlayed) only when the prize has positive value;
no separate counter update. -/
def dbSpinWheel (st : DbState) (uid : Nat) (r r2 : ℚ) :
    Except String (DbState × SpinResult) :=
  let p := selectedPrize r
  if 0 < p.value then
    match dbRecordScore st uid "spinwheel" p.value with
    | .error e => .error e
    | .ok st1 => .ok (st1, ⟨p.label, p.value, spinDegrees r r2⟩)
  else .ok (st, ⟨p.label, p.value, spinDegrees r r2⟩)

/-- Rounding performed by Number.prototype.toFixed(1) in formatScore
(storage.ts line 237), for rationals whose decimal printing is exact:
round to the nearest tenth, half away from zero. -/
def toFixed1 (v : ℚ) : ℚ :=
  (if v < 0 then (-1 : ℚ) else 1) * ((⌊|v| * 10 + 1/2⌋ : ℤ) : ℚ) / 10

/-- Numeric value carried by the formatted score string built by
formatScore (storage.ts lines 232-243): redlight is printed with
value.toFixed(1), every other type prints the value itself. -/
def displayVal (t : String) (v : ℚ) : ℚ :=
  if t = "redlight" then toFixed1 v else v

/-- Leaderboard entry (storage.ts lines 190-197); scoreVal is the numeric
value of the formatted score string, the date field is omitted. -/
structure LBEntry where
  rank : Nat
  player : String
  game : String
  gameType : String
  scoreVal : ℚ
deriving DecidableEq, Repr

/-- Numeric key the sort comparator extracts from an entry:
parseFloat(score.replace(/[^0-9.]/g, "")) strips the minus sign, so the
key is the absolute value of the displayed number (storage.ts 205-206). -/
def scoreKey (e : LBEntry) : ℚ := |e.scoreVal|

/-- Row classification of the comparator (storage.ts lines 209-216):
guessing and redlight rows sort ascending, all other rows descending. -/
def rowAsc (e : LBEntry) : Bool :=
  e.gameType = "guessing" || e.gameType = "redlight"

/-- Before-or-equal relation of the JS comparator of getLeaderboard
(storage.ts lines 203-220): a precedes b exactly when the comparator
returns a nonpositive number; the direction is chosen per row from a. -/
def lbRel (a b : LBEntry) : Prop :=
  if rowAsc a then scoreKey a ≤ scoreKey b else scoreKey b ≤ scoreKey a

instance : DecidableRel lbRel := fun a b => by
  unfold lbRel
  infer_instance

/-- Rank-assignment loop shared by the leaderboard builders
(e.g. storage.ts lines 223-226): entry.rank = currentRank++. -/
def assignRanksWith {α : Type} (setRank : α → Nat → α) : Nat → List α → List α
  | _, [] => []
  | n, e :: rest => setRank e n :: assignRanksWith setRank (n + 1) rest

/-- Entry built for one score row by getLeaderboard when its game exists
and passes the type filter (storage.ts lines 185-199). -/
def entryOfScore (st : MemState) (t : String) (user : User) (sc : Score) :
    Option LBEntry :=
  match st.games.find? (fun g => g.id = sc.gameId) with
  | none => none
  | some game =>
      if t = "all" ∨ game.type = t then
        some ⟨0, user.username, game.name, game.type, displayVal game.type sc.value⟩
      else none

/-- Collection phase of MemStorage.getLeaderboard (storage.ts lines
179-200): walk the scores Map, skip users without a record, build one
entry per score passing the filter. -/
def collectLB (st : MemState) (t : String) : List LBEntry :=
  st.scores.flatMap (fun p =>
    match st.users.find? (fun u => u.id = p.1) with
    | none => []
    | some user => p.2.filterMap (entryOfScore st t user))

/-- MemStorage.getLeaderboard (storage.ts lines 178-229): collect, sort
with the per-row comparator (Array.prototype.sort is stable), assign
ranks 1..N. -/
def getLeaderboard (st : MemState) (t : String) : List LBEntry :=
  assignRanksWith (fun e n => { e with rank := n }) 1
    (List.insertionSort lbRel (collectLB st t))

/-- Whether a score row belongs to a game of the given type in the
MemStorage catalog. -/
def scoreHasType (st : MemState) (t : String) (sc : Score) : Bool :=
  match st.games.find? (fun g => g.id = sc.gameId) with
  | some g => g.type = t
  | none => false

/-- Math.round: round half toward positive infinity. -/
def jsRound (v : ℚ) : ℤ := ⌊v + 1/2⌋

/-- Entry of the typeracer leaderboard (storage.ts lines 527-532). -/
structure TREntry where
  rank : Nat
  player : String
  wpm : ℤ
  accuracy : Nat
deriving DecidableEq, Repr

/-- Entry built by getTypeRacerLeaderboard for one scores-Map slot: none
when the user record is missing or the user has no typeracer score,
otherwise one entry with Math.round of the highest WPM (storage.ts lines
512-534).  The reduce keeps the first maximum on ties. -/
def trEntryFor (st : MemState) (p : Nat × List Score) : Option TREntry :=
  match st.users.find? (fun u => u.id = p.1) with
  | none => none
  | some user =>
      match p.2.filter (scoreHasType st "typeracer") with
      | [] => none
      | s0 :: rest =>
          let best := (s0 :: rest).foldl (fun b c => if b.value < c.value then c else b) s0
          some ⟨0, user.username, jsRound best.value, 95⟩

/-- Collection phase of MemStorage.getTypeRacerLeaderboard: at most one
entry per scores-Map key. -/
def collectTR (st : MemState) : List TREntry :=
  st.scores.filterMap (trEntryFor st)

/-- Before-or-equal relation of the comparator (a, b) => b.wpm - a.wpm
(storage.ts line 537): descending by rounded WPM. -/
def trRel (a b : TREntry) : Prop := b.wpm ≤ a.wpm

instance : DecidableRel trRel := fun a b => by
  unfold trRel
  infer_instance

instance : IsTotal TREntry trRel :=
  ⟨fun a b => le_total b.wpm a.wpm⟩

instance : IsTrans TREntry trRel :=
  ⟨fun _ _ _ hab hbc => le_trans hbc hab⟩

/-- Sorted and ranked real entries of the typeracer leaderboard
(storage.ts lines 537-543). -/
def trRanked (st : MemState) : List TREntry :=
  assignRanksWith (fun (e : TREntry) n => { e with rank := n }) 1
    (List.insertionSort trRel (collectTR st))

/-- MemStorage.getTypeRacerLeaderboard (storage.ts lines 509-555): collect,
sort descending by wpm, assign ranks, and fall back to three fixed sample
entries when no real score exists. -/
def getTypeRacerLeaderboard (st : MemState) : List TREntry :=
  if (trRanked st).isEmpty then
    [⟨1, "SpeedTyper", 124, 98⟩, ⟨2, "TypeMaster", 116, 96⟩, ⟨3, "KeyboardNinja", 105, 94⟩]
  else trRanked st

/-- Entry of the bread-game high-score list (storage.ts lines 615-618). -/
structure BreadEntry where
  player : String
  score : ℚ
deriving DecidableEq, Repr

/-- Entry built by getBreadGameStats for one scores-Map slot (storage.ts
lines 600-620): the highest cse17 score of the user. -/
def breadEntryFor (st : MemState) (p : Nat × List Score) : Option BreadEntry :=
  match st.users.find? (fun u => u.id = p.1) with
  | none => none
  | some user =>
      match p.2.filter (scoreHasType st "cse17") with
      | [] => none
      | s0 :: rest =>
          let best := (s0 :: rest).foldl (fun b c => if b.value < c.value then c else b) s0
          some ⟨user.username, best.value⟩

/-- Before-or-equal relation of the comparator (a, b) => b.score - a.score
(storage.ts line 623). -/
def breadRel (a b : BreadEntry) : Prop := b.score ≤ a.score

instance : DecidableRel breadRel := fun a b => by
  unfold breadRel
  infer_instance

/-- highScores list of MemStorage.getBreadGameStats (storage.ts lines
596-640): best score per user, sorted descending, sample data when empty,
truncated to the top five. -/
def getBreadHighScores (st : MemState) : List BreadEntry :=
  let sorted := List.insertionSort breadRel (st.scores.filterMap (breadEntryFor st))
  let withSamples :=
    if sorted.isEmpty then
      [⟨"FastBread", 1250⟩, ⟨"BreadMaster", 980⟩, ⟨"CarefulLoaf", 825⟩]
    else sorted
  withSamples.take 5

/-- Response of MemStorage.submitTypeRacerScore (storage.ts lines 499-507).
The source object literal is { success: true, leaderboard }; it has no
isHighScore property, so reading result.isHighScore in routes.ts yields
undefined — modelled as the none value of an optional field. -/
structure TRSubmitResponse where
  success : Bool
  leaderboard : List TREntry
  isHighScore : Option Bool
deriving DecidableEq, Repr

/-- MemStorage.submitTypeRacerScore (storage.ts lines 499-507). -/
def submitTypeRacerScore (st : MemState) (uid : Nat) (wpm : ℚ) :
    MemState × TRSubmitResponse :=
  let st1 := memRecordScore st uid "typeracer" wpm
  (st1, ⟨true, getTypeRacerLeaderboard st1, none⟩)

/-- Response of MemStorage.submitBreadGameScore (storage.ts lines 586-594):
{ success: true, highScores } with no isHighScore property. -/
structure BreadSubmitResponse where
  success : Bool
  highScores : List BreadEntry
  isHighScore : Option Bool
deriving DecidableEq, Repr

/-- MemStorage.submitBreadGameScore (storage.ts lines 586-594). -/
def submitBreadGameScore (st : MemState) (uid : Nat) (score : ℚ) :
    MemState × BreadSubmitResponse :=
  let st1 := memRecordScore st uid "cse17" score
  (st1, ⟨true, getBreadHighScores st1, none⟩)

/-- Winner payload built by the routes (routes.ts lines 337-343 and
385-391), reduced to the fields the claims mention. -/
structure WinnerData where
  player : String
  gameType : String
deriving DecidableEq, Repr

/-- One message pushed by broadcastLeaderboard (routes.ts lines 167-183)
to every connected channel. -/
structure BroadcastMsg where
  gameType : String
  winner : Option WinnerData
deriving DecidableEq, Repr

/-- Handler of POST /api/games/typeracer/score (routes.ts lines 325-353):
submit the score, then broadcast a winner message only if
result.isHighScore is truthy.  Returns the new state, the response body
and the list of broadcast calls made. -/
def routeTypeRacerScore (st : MemState) (user : User) (wpm : ℚ) :
    MemState × TRSubmitResponse × List BroadcastMsg :=
  let out := submitTypeRacerScore st user.id wpm
  let broadcasts : List BroadcastMsg :=
    match out.2.isHighScore with
    | some true => [⟨"typeracer", some ⟨user.username, "typeracer"⟩⟩]
    | _ => []
  (out.1, out.2, broadcasts)

/-- Handler of POST /api/games/bread/score (routes.ts lines 374-401). -/
def routeBreadScore (st : MemState) (user : User) (score : ℚ) :
    MemState × BreadSubmitResponse × List BroadcastMsg :=
  let out := submitBreadGameScore st user.id score
  let broadcasts : List BroadcastMsg :=
    match out.2.isHighScore with
    | some true => [⟨"cse17", some ⟨user.username, "cse17"⟩⟩]
    | _ => []
  (out.1, out.2, broadcasts)

/-! Concrete states used by the witness and counterexample theorems. -/

/-- A registered user with no games played. -/
def alice : User := ⟨1, "alice", 0⟩

/-- A second registered user. -/
def bob : User := ⟨2, "bob", 0⟩

/-- MemStorage state with an in-progress guessing session for alice:
target 42, one attempt taken (the guess 50). -/
def stGuessMid : MemState :=
  ⟨[alice], [(1, ⟨42, 1, 10, [50], false⟩)], [], []⟩

/-- MemStorage state with a guessing session for alice on its last
attempt: target 42, nine attempts taken. -/
def stGuessLast : MemState :=
  ⟨[alice], [(1, ⟨42, 9, 10, [1, 2, 3, 4, 5, 6, 7, 8, 9], false⟩)], [], []⟩

/-- MemStorage state with two redlight scores for alice, values 2 and -3
(a negative time is accepted by the route, which stores parseFloat of a
client-supplied string). -/
def stRedlightNeg : MemState :=
  ⟨[alice], [], [(1, [⟨1, 1, 2⟩, ⟨1, 1, -3⟩])], [⟨1, "redlight", "Red Light, Green Light"⟩]⟩

/-- MemStorage state with one guessing score for each of alice (5 attempts)
and bob (3 attempts). -/
def stGuessBoard : MemState :=
  ⟨[alice, bob], [], [(1, [⟨1, 1, 5⟩]), (2, [⟨2, 1, 3⟩])], [⟨1, "guessing", "Guessing Game"⟩]⟩

/-- MemStorage state where alice submitted a single typeracer score of
72.5 WPM. -/
def stTRHalf : MemState :=
  ⟨[alice], [], [(1, [⟨1, 1, 145/2⟩])], [⟨1, "typeracer", "Type Racer"⟩]⟩

/-- MemStorage state with typeracer scores 60 (alice) and 80 (bob). -/
def stTRBoard : MemState :=
  ⟨[alice, bob], [], [(1, [⟨1, 1, 60⟩]), (2, [⟨2, 1, 80⟩])], [⟨1, "typeracer", "Type Racer"⟩]⟩

/-- DatabaseStorage state with alice and a guessing catalog entry. -/
def dbGuess : DbState := ⟨[alice], [⟨1, "guessing", "Guessing Game"⟩], []⟩

/-- DatabaseStorage state with alice and an empty games catalog. -/
def dbEmptyCatalog : DbState := ⟨[alice], [], []⟩

/-- MemStorage state with only alice registered. -/
def stAlice : MemState := ⟨[alice], [], [], []⟩

/-- DatabaseStorage state with alice and a spinwheel catalog entry. -/
def dbSpin : DbState := ⟨[alice], [⟨1, "spinwheel", "Spin Wheel"⟩], []⟩

/-! Helper lemmas about the association-list and list operations. -/

theorem getAssoc_setAssoc_self {α : Type} (m : List (Nat × α)) (k : Nat) (v : α) :
    getAssoc (setAssoc m k v) k = some v := by
  induction m with
  | nil => simp [getAssoc, setAssoc]
  | cons p rest ih =>
      by_cases h : p.1 = k
      · simp [getAssoc, setAssoc, h]
      · simp [getAssoc, setAssoc, h, ih]

theorem gamesPlayedOf_bumpUsers (us : List User) (uid : Nat) :
    gamesPlayedOf (bumpUsers us uid) uid = (gamesPlayedOf us uid).map (· + 1) := by
  induction us with
  | nil => simp [gamesPlayedOf, bumpUsers]
  | cons u rest ih =>
      simp only [gamesPlayedOf, bumpUsers, List.map_cons] at ih ⊢
      by_cases h : u.id = uid
      · simp [List.find?_cons, h]
      · simp only [if_neg h, List.find?_cons, h, decide_eq_false, Bool.false_eq_true,
          if_false]
        exact ih

theorem pairwise_orderedInsert_on {α : Type} (rel : α → α → Prop) [DecidableRel rel]
    (P : α → Prop)
    (tot : ∀ a b, P a → P b → ¬ rel a b → rel b a)
    (tr : ∀ a b c, P a → P b → P c → rel a b → rel b c → rel a c)
    (a : α) (l : List α) (ha : P a) (hl : ∀ x ∈ l, P x)
    (h : l.Pairwise rel) : (l.orderedInsert rel a).Pairwise rel := by
  induction l with
  | nil => simp
  | cons b t ih =>
      rw [List.orderedInsert]
      rcases List.pairwise_cons.mp h with ⟨hbt, ht⟩
      by_cases hab : rel a b
      · rw [if_pos hab]
        refine List.pairwise_cons.mpr ⟨?_, h⟩
        intro c hc
        rcases List.mem_cons.mp hc with rfl | hc
        · exact hab
        · exact tr a b c ha (hl b (List.mem_cons_self b t))
            (hl c (List.mem_cons_of_mem b hc)) hab (hbt c hc)
      · rw [if_neg hab]
        refine List.pairwise_cons.mpr
          ⟨?_, ih (fun x hx => hl x (List.mem_cons_of_mem b hx)) ht⟩
        intro c hc
        rcases (List.mem_orderedInsert rel).mp hc with hca | hc
        · rw [hca]
          exact tot a b ha (hl b (List.mem_cons_self b t)) hab
        · exact hbt c hc

theorem pairwise_insertionSort_on {α : Type} (rel : α → α → Prop) [DecidableRel rel]
    (P : α → Prop)
    (tot : ∀ a b, P a → P b → ¬ rel a b → rel b a)
    (tr : ∀ a b c, P a → P b → P c → rel a b → rel b c → rel a c) :
    ∀ (l : List α), (∀ x ∈ l, P x) → (l.insertionSort rel).Pairwise rel
  | [], _ => by simp
  | a :: t, hl => by
      rw [List.insertionSort]
      refine pairwise_orderedInsert_on rel P tot tr a _
        (hl a (List.mem_cons_self a t)) ?_ ?_
      · intro x hx
        exact hl x (List.mem_cons_of_mem a ((List.mem_insertionSort rel).mp hx))
      · exact pairwise_insertionSort_on rel P tot tr t
          (fun x hx => hl x (List.mem_cons_of_mem a hx))

theorem assignRanksWith_map_rank {α : Type} (setRank : α → Nat → α)
    (rankOf : α → Nat) (hset : ∀ e n, rankOf (setRank e n) = n) :
    ∀ (n : Nat) (l : List α),
      (assignRanksWith setRank n l).map rankOf = List.range' n l.length
  | _, [] => by simp [assignRanksWith]
  | n, e :: rest => by
      simp [assignRanksWith, List.range', hset,
        assignRanksWith_map_rank setRank rankOf hset (n + 1) rest]

theorem assignRanksWith_map_other {α β : Type} (setRank : α → Nat → α)
    (f : α → β) (hset : ∀ e n, f (setRank e n) = f e) :
    ∀ (n : Nat) (l : List α),
      (assignRanksWith setRank n l).map f = l.map f
  | _, [] => by simp [assignRanksWith]
  | n, e :: rest => by
      simp [assignRanksWith, hset,
        assignRanksWith_map_other setRank f hset (n + 1) rest]

theorem assignRanksWith_length {α : Type} (setRank : α → Nat → α) :
    ∀ (n : Nat) (l : List α), (assignRanksWith setRank n l).length = l.length
  | _, [] => by simp [assignRanksWith]
  | n, _ :: rest => by
      simp [assignRanksWith, assignRanksWith_length setRank (n + 1) rest]

/-- The reduce of getTypeRacerLeaderboard and getBreadGameStats keeps an
element whose value is an upper bound of everything folded over. -/
theorem foldl_best_spec :
    ∀ (l : List Score) (acc : Score),
      (l.foldl (fun b c => if b.value < c.value then c else b) acc = acc
        ∨ l.foldl (fun b c => if b.value < c.value then c else b) acc ∈ l) ∧
      acc.value ≤ (l.foldl (fun b c => if b.value < c.value then c else b) acc).value ∧
      ∀ c ∈ l, c.value ≤ (l.foldl (fun b c => if b.value < c.value then c else b) acc).value
  | [], acc => by simp
  | x :: xs, acc => by
      by_cases hx : acc.value < x.value
      · rcases foldl_best_spec xs x with ⟨hmem, hle, hall⟩
        refine ⟨?_, ?_, ?_⟩
        · rcases hmem with hmem | hmem
          · exact Or.inr (by simp [List.foldl_cons, if_pos hx, hmem])
          · exact Or.inr (by simp [List.foldl_cons, if_pos hx, List.mem_cons_of_mem x hmem])
        · simpa [List.foldl_cons, if_pos hx] using le_trans (le_of_lt hx) hle
        · intro c hc
          rcases List.mem_cons.mp hc with rfl | hc
          · simpa [List.foldl_cons, if_pos hx] using hle
          · simpa [List.foldl_cons, if_pos hx] using hall c hc
      · rcases foldl_best_spec xs acc with ⟨hmem, hle, hall⟩
        refine ⟨?_, ?_, ?_⟩
        · rcases hmem with hmem | hmem
          · exact Or.inl (by simp [List.foldl_cons, if_neg hx, hmem])
          · exact Or.inr (by simp [List.foldl_cons, if_neg hx, List.mem_cons_of_mem x hmem])
        · simpa [List.foldl_cons, if_neg hx] using hle
        · intro c hc
          rcases List.mem_cons.mp hc with rfl | hc
          · simpa [List.foldl_cons, if_neg hx] using le_trans (le_of_not_lt hx) hle
          · simpa [List.foldl_cons, if_neg hx] using hall c hc

/-! Claim theorems. -/

/-- C1: the typeracer and bread score routes push a winner broadcast only
when result.isHighScore is truthy, but submitTypeRacerScore and
submitBreadGameScore never set that field, so no submission — whether or
not it is a new personal best — ever produces a winner broadcast. -/
theorem winner_broadcast_never_sent :
    (∀ (st : MemState) (user : User) (wpm : ℚ),
        (routeTypeRacerScore st user wpm).2.2 = []) ∧
    (∀ (st : MemState) (user : User) (score : ℚ),
        (routeBreadScore st user score).2.2 = []) :=
  ⟨fun _ _ _ => rfl, fun _ _ _ => rfl⟩

/-- C3: a guess already contained in previousGuesses is rejected with an
error, and the storage state is left unchanged (in the source the
duplicate check returns before any mutation). -/
theorem makeGuess_duplicate_rejected (st : MemState) (uid guess : Nat)
    (g : GuessingState) (hs : getAssoc st.guessing uid = some g)
    (hover : g.gameOver = false) (hdup : guess ∈ g.previousGuesses) :
    makeGuess st uid guess = .error "You already tried this number" ∧
    makeGuessState st uid guess = st := by
  have h1 : makeGuess st uid guess = .error "You already tried this number" := by
    unfold makeGuess
    rw [hs]
    simp [hover, hdup]
  refine ⟨h1, ?_⟩
  unfold makeGuessState
  rw [h1]

/-- Witness for C3 at a concrete state: the session holds previous guess
50 and the same guess is submitted again. -/
theorem makeGuess_duplicate_rejected_witness :
    makeGuess stGuessMid 1 50 = .error "You already tried this number" ∧
    makeGuessState stGuessMid 1 50 = stGuessMid :=
  makeGuess_duplicate_rejected stGuessMid 1 50 ⟨42, 1, 10, [50], false⟩
    rfl rfl (by decide)

/-- C6 amended: starting a guessing game increments the games-played
counter by exactly one, and MemStorage.recordScore leaves the users table
unchanged; DatabaseStorage.recordScore however also increments the
counter by one. -/
theorem gamesPlayed_counter_semantics :
    (∀ (st : MemState) (uid target : Nat),
        gamesPlayedOf (startGuessingGame st uid target).users uid
          = (gamesPlayedOf st.users uid).map (· + 1)) ∧
    (∀ (st : MemState) (uid : Nat) (t : String) (v : ℚ),
        (memRecordScore st uid t v).users = st.users) ∧
    (∀ (dst : DbState) (uid : Nat) (t : String) (v : ℚ) (dst2 : DbState),
        dbRecordScore dst uid t v = .ok dst2 →
        gamesPlayedOf dst2.users uid = (gamesPlayedOf dst.users uid).map (· + 1)) := by
  refine ⟨?_, ?_, ?_⟩
  · intro st uid target
    exact gamesPlayedOf_bumpUsers st.users uid
  · intro st uid t v
    rfl
  · intro dst uid t v dst2 h
    unfold dbRecordScore at h
    cases hg : dbGetGameIdByType dst t with
    | error e => rw [hg] at h; cases h
    | ok gid =>
        rw [hg] at h
        cases h
        exact gamesPlayedOf_bumpUsers dst.users uid

/-- Witness for C6 at a concrete database state: recording a guessing
score for alice moves her counter from 0 to 1. -/
theorem gamesPlayed_counter_semantics_witness :
    gamesPlayedOf ([⟨1, "alice", 1⟩] : List User) 1
      = (gamesPlayedOf dbGuess.users 1).map (· + 1) := by
  have h := gamesPlayed_counter_semantics.2.2 dbGuess 1 "guessing" 5
    ⟨[⟨1, "alice", 1⟩], [⟨1, "guessing", "Guessing Game"⟩], [⟨1, 1, 5⟩]⟩ rfl
  exact h

/-- C6 counterexample: recording a score through the database backend
changes the games-played counter from 0 to 1, refuting that recordScore
leaves the counter unchanged. -/
theorem dbRecordScore_counter_cex :
    (dbRecordScore dbGuess 1 "guessing" 5).map (fun s => gamesPlayedOf s.users 1)
      = .ok (some 1) ∧
    gamesPlayedOf dbGuess.users 1 = some 0 :=
  ⟨rfl, rfl⟩

/-- C8 amended: MemStorage.recordScore creates the missing catalog entry
on demand with a static name lookup that never fails and maps unknown
types to Unknown Game, but DatabaseStorage.recordScore creates nothing
and fails with an error when the catalog entry is missing. -/
theorem recordScore_catalog_semantics :
    (∀ (st : MemState) (uid : Nat) (t : String) (v : ℚ),
        st.games.find? (fun g => g.type = t) = none →
        (memRecordScore st uid t v).games
          = st.games ++ [⟨st.games.length + 1, t, getGameName t⟩]) ∧
    (∀ t : String,
        t ≠ "guessing" → t ≠ "spinwheel" → t ≠ "redlight" → t ≠ "typeracer" →
        t ≠ "cse17" → getGameName t = "Unknown Game") ∧
    (∀ (dst : DbState) (uid : Nat) (t : String) (v : ℚ),
        dst.games.find? (fun g => g.type = t) = none →
        dbRecordScore dst uid t v = .error ("Game type " ++ t ++ " not found")) := by
  refine ⟨?_, ?_, ?_⟩
  · intro st uid t v h
    simp [memRecordScore, memGamesAfter, h]
  · intro t h1 h2 h3 h4 h5
    simp [getGameName, h1, h2, h3, h4, h5]
  · intro dst uid t v h
    simp [dbRecordScore, dbGetGameIdByType, h]

/-- Witness for C8: recording a score of an unknown type on the empty
in-memory catalog creates the Unknown Game entry, while the database
backend errors out. -/
theorem recordScore_catalog_semantics_witness :
    (memRecordScore (⟨[], [], [], []⟩ : MemState) 1 "mystery" 5).games
      = [⟨1, "mystery", "Unknown Game"⟩] ∧
    dbRecordScore (⟨[], [], []⟩ : DbState) 1 "mystery" 5
      = .error "Game type mystery not found" := by
  constructor
  · have h := recordScore_catalog_semantics.1 ⟨[], [], [], []⟩ 1 "mystery" 5 rfl
    rw [h]
    rfl
  · exact recordScore_catalog_semantics.2.2 ⟨[], [], []⟩ 1 "mystery" 5 rfl

/-- C8 counterexample: on the database backend a score submission whose
game type has no catalog entry raises an error instead of creating an
entry on demand. -/
theorem dbRecordScore_missing_type_cex :
    dbRecordScore dbEmptyCatalog 1 "guessing" 5
      = .error "Game type guessing not found" := rfl

/-- C2: a fresh guess equal to the target of an active session wins: the
session is marked game over, one guessing score equal to the attempt
count including this guess is appended for the user, and the response is
message correct with isCorrect true. -/
theorem makeGuess_correct_guess (st : MemState) (uid guess : Nat)
    (g : GuessingState) (hs : getAssoc st.guessing uid = some g)
    (hover : g.gameOver = false) (hfresh : guess ∉ g.previousGuesses)
    (htarget : guess = g.targetNumber) :
    ∃ st2 resp, makeGuess st uid guess = .ok (st2, resp) ∧
      resp.message = "correct" ∧ resp.isCorrect = true ∧
      getAssoc st2.guessing uid
        = some { g with attempts := g.attempts + 1,
                        previousGuesses := g.previousGuesses ++ [guess],
                        gameOver := true } ∧
      getAssoc st2.scores uid
        = some ((getAssoc st.scores uid).getD []
            ++ [⟨uid, memGameIdFor st "guessing", ((g.attempts + 1 : ℕ) : ℚ)⟩]) := by
  subst htarget
  unfold makeGuess
  rw [hs]
  dsimp only
  rw [if_neg (by simp [hover]), if_neg hfresh]
  refine ⟨_, _, rfl, by simp, by simp, by simp [getAssoc_setAssoc_self],
    by simp [memRecordScore, getAssoc_setAssoc_self]⟩

/-- Witness for C2: alice guesses the target 42 on her second attempt, the
response is correct and the recorded score value is 2. -/
theorem makeGuess_correct_guess_witness :
    (makeGuess stGuessMid 1 42).toOption.map
        (fun x => (x.2.message, x.2.isCorrect, getAssoc x.1.scores 1))
      = some ("correct", true, some [⟨1, 1, 2⟩]) := by
  obtain ⟨st2, resp, hok, hmsg, hcor, _, hsc⟩ :=
    makeGuess_correct_guess stGuessMid 1 42 ⟨42, 1, 10, [50], false⟩
      rfl rfl (by decide) rfl
  rw [hok]
  simp only [Except.toOption, Option.map_some']
  rw [hmsg, hcor, hsc]
  decide

/-- C4: a wrong fresh guess that brings the attempt count to the maximum
of 10 ends the session as lost, reveals the target number in the
response, and records no score. -/
theorem makeGuess_out_of_attempts (st : MemState) (uid guess : Nat)
    (g : GuessingState) (hs : getAssoc st.guessing uid = some g)
    (hover : g.gameOver = false) (hfresh : guess ∉ g.previousGuesses)
    (hwrong : guess ≠ g.targetNumber) (hmax : g.maxAttempts = 10)
    (hatt : g.attempts = 9) :
    ∃ st2 resp, makeGuess st uid guess = .ok (st2, resp) ∧
      resp.isCorrect = false ∧
      resp.correctNumber = some g.targetNumber ∧
      getAssoc st2.guessing uid
        = some { g with attempts := 10,
                        previousGuesses := g.previousGuesses ++ [guess],
                        gameOver := true } ∧
      st2.scores = st.scores ∧ st2.users = st.users := by
  unfold makeGuess
  rw [hs]
  dsimp only
  rw [if_neg (by simp [hover]), if_neg hfresh]
  refine ⟨_, _, rfl, by simp [hwrong], by simp [hwrong, hmax, hatt],
    by simp [hwrong, hmax, hatt, getAssoc_setAssoc_self], by simp [hwrong],
    by simp [hwrong]⟩

/-- Witness for C4: alice wastes her tenth attempt on 50 while the target
is 42; the session ends lost, the target is revealed, no score exists. -/
theorem makeGuess_out_of_attempts_witness :
    (makeGuess stGuessLast 1 50).toOption.map
        (fun x => (x.2.isCorrect, x.2.correctNumber, x.1.scores))
      = some (false, some 42, []) := by
  obtain ⟨st2, resp, hok, hcor, hnum, _, hsc, _⟩ :=
    makeGuess_out_of_attempts stGuessLast 1 50 ⟨42, 9, 10, [1, 2, 3, 4, 5, 6, 7, 8, 9], false⟩
      rfl rfl (by decide) (by decide) rfl rfl
  rw [hok]
  simp only [Except.toOption, Option.map_some']
  rw [hcor, hnum, hsc]
  decide

/-- C7: every draw in the interval from 0 inclusive to 1 exclusive is
matched by the accumulating walk (the weights sum to exactly 1), so
spinWheel selects exactly one prize, the first whose accumulated range
contains the draw; the unmatched fall-back case never arises on this
interval, so the clause about it holds vacuously. -/
theorem spinWheel_selects_unique_prize (r : ℚ) (h0 : 0 ≤ r) (h1 : r < 1) :
    (∃ p, selectLoop r prizes 0 = some p ∧ selectedPrize r = p ∧ p ∈ prizes) ∧
    (selectLoop r prizes 0 = none →
      selectedPrize r = ⟨300, "300 Points", 1/20⟩) := by
  have hmain : ∃ p, selectLoop r prizes 0 = some p ∧ selectedPrize r = p ∧ p ∈ prizes := by
    unfold selectedPrize
    simp only [selectLoop, prizes, prize0]
    split_ifs <;>
      first
        | exact ⟨_, rfl, rfl, by simp⟩
        | (exfalso; linarith)
  rcases hmain with ⟨p, hp, hsel, hmem⟩
  refine ⟨⟨p, hp, hsel, hmem⟩, ?_⟩
  intro hnone
  rw [hp] at hnone
  cases hnone

/-- Witness for C7 at the draw 0.6, which selects the Try Again prize. -/
theorem spinWheel_selects_unique_prize_witness :
    (0 : ℚ) ≤ 3/5 ∧ (3 : ℚ)/5 < 1 ∧
    (∃ p, selectLoop (3/5) prizes 0 = some p ∧ selectedPrize (3/5) = p ∧ p ∈ prizes) :=
  ⟨by norm_num, by norm_num,
    (spinWheel_selects_unique_prize (3/5) (by norm_num) (by norm_num)).1⟩

/-- C10 amended: with identical draws the two backends return the same
result, and when the prize has positive value both append the same score
and both increment the games-played counter; but on a zero-value prize
the in-memory backend still increments the counter while the database
backend changes nothing. -/
theorem spinWheel_backend_equiv_amended (mst : MemState) (dst : DbState) (uid : Nat)
    (r r2 : ℚ) (g : Game)
    (hg : dst.games.find? (fun x => x.type = "spinwheel") = some g) :
    ∃ dst2, dbSpinWheel dst uid r r2 = .ok (dst2, (memSpinWheel mst uid r r2).2) ∧
      (0 < (selectedPrize r).value →
        dst2 = { dst with
                   scores := dst.scores ++ [⟨uid, g.id, (selectedPrize r).value⟩],
                   users := bumpUsers dst.users uid } ∧
        getAssoc (memSpinWheel mst uid r r2).1.scores uid
          = some ((getAssoc mst.scores uid).getD []
              ++ [⟨uid, memGameIdFor mst "spinwheel", (selectedPrize r).value⟩]) ∧
        gamesPlayedOf (memSpinWheel mst uid r r2).1.users uid
          = (gamesPlayedOf mst.users uid).map (· + 1) ∧
        gamesPlayedOf dst2.users uid = (gamesPlayedOf dst.users uid).map (· + 1)) ∧
      (¬ 0 < (selectedPrize r).value →
        dst2 = dst ∧
        (memSpinWheel mst uid r r2).1.scores = mst.scores ∧
        gamesPlayedOf (memSpinWheel mst uid r r2).1.users uid
          = (gamesPlayedOf mst.users uid).map (· + 1)) := by
  by_cases hv : 0 < (selectedPrize r).value
  · refine ⟨{ dst with
        scores := dst.scores ++ [⟨uid, g.id, (selectedPrize r).value⟩],
        users := bumpUsers dst.users uid }, ?_, ?_, fun hcon => absurd hv hcon⟩
    · simp only [dbSpinWheel, dbRecordScore, dbGetGameIdByType, hg, if_pos hv,
        memSpinWheel]
    · intro _
      refine ⟨rfl, ?_, ?_, ?_⟩
      · simp only [memSpinWheel, if_pos hv, memRecordScore]
        exact getAssoc_setAssoc_self _ _ _
      · simp only [memSpinWheel, if_pos hv]
        exact gamesPlayedOf_bumpUsers _ _
      · exact gamesPlayedOf_bumpUsers dst.users uid
  · refine ⟨dst, ?_, fun hcon => absurd hcon hv, fun _ => ⟨rfl, ?_, ?_⟩⟩
    · simp only [dbSpinWheel, if_neg hv, memSpinWheel]
    · simp only [memSpinWheel, if_neg hv]
    · simp only [memSpinWheel, if_neg hv]
      exact gamesPlayedOf_bumpUsers mst.users uid

/-- Witness for C10: at the Try Again draw 0.6 the database backend
returns the same spin result as the in-memory backend and leaves its
state unchanged. -/
theorem spinWheel_backend_equiv_amended_witness :
    dbSpinWheel dbSpin 1 (3/5) 0 = .ok (dbSpin, (memSpinWheel stAlice 1 (3/5) 0).2) := by
  obtain ⟨dst2, hdb, hpos, hneg⟩ :=
    spinWheel_backend_equiv_amended stAlice dbSpin 1 (3/5) 0 ⟨1, "spinwheel", "Spin Wheel"⟩ rfl
  obtain ⟨hd, _, _⟩ := hneg (by norm_num [selectedPrize, selectLoop, prizes, prize0])
  rw [hd] at hdb
  exact hdb

/-- C10 counterexample: after the same Try Again draw, starting from
counters at 0 in both backends, the in-memory backend reports one game
played while the database backend still reports zero, so the two
backends do not have the same effect on the games-played counter. -/
theorem spinWheel_backend_divergence_cex :
    gamesPlayedOf stAlice.users 1 = some 0 ∧
    gamesPlayedOf dbSpin.users 1 = some 0 ∧
    gamesPlayedOf (memSpinWheel stAlice 1 (3/5) 0).1.users 1 = some 1 ∧
    (dbSpinWheel dbSpin 1 (3/5) 0).map (fun x => gamesPlayedOf x.1.users 1)
      = .ok (some 0) ∧
    ((some 1 : Option Nat) ≠ some 0) := by
  have hv : ¬ 0 < (selectedPrize (3/5)).value := by
    norm_num [selectedPrize, selectLoop, prizes, prize0]
  refine ⟨rfl, rfl, ?_, ?_, by decide⟩
  · simp only [memSpinWheel, if_neg hv]
    decide
  · simp only [dbSpinWheel, if_neg hv, Except.map]
    rfl

/-- Every entry collected for a single-type leaderboard query carries that
game type. -/
theorem collectLB_gameType {st : MemState} {t : String} (ht : t ≠ "all") :
    ∀ e ∈ collectLB st t, e.gameType = t := by
  intro e he
  unfold collectLB at he
  rw [List.mem_flatMap] at he
  obtain ⟨p, hp, he⟩ := he
  revert he
  cases hfind : st.users.find? (fun u => u.id = p.1) with
  | none => intro he; simp at he
  | some user =>
      intro he
      rw [List.mem_filterMap] at he
      obtain ⟨sc, hsc, hes⟩ := he
      unfold entryOfScore at hes
      revert hes
      cases hg : st.games.find? (fun g => g.id = sc.gameId) with
      | none => intro hes; cases hes
      | some game =>
          intro hes
          dsimp only at hes
          by_cases hcond : t = "all" ∨ game.type = t
          · rw [if_pos hcond] at hes
            cases hes
            rcases hcond with hc | hc
            · exact absurd hc ht
            · exact hc
          · rw [if_neg hcond] at hes
            cases hes

/-- C5 amended: for a single-type query over a store whose collected score
values are nonnegative, ranks are exactly 1..N and the entries are sorted
by the displayed score value — ascending for guessing and redlight
(redlight by the tenth-rounded display value), descending for the other
three types.  (The comparator parses the absolute value of the formatted
score string, so negative stored values order by magnitude; the
nonnegativity hypothesis makes displayed order and comparator order
agree.) -/
theorem getLeaderboard_sorted_ranks (st : MemState) (t : String)
    (ht : t = "guessing" ∨ t = "redlight" ∨ t = "spinwheel" ∨ t = "typeracer" ∨ t = "cse17")
    (hnn : ∀ e ∈ collectLB st t, 0 ≤ e.scoreVal) :
    ((getLeaderboard st t).map (fun e => e.rank)
        = List.range' 1 (getLeaderboard st t).length) ∧
    ((t = "guessing" ∨ t = "redlight") →
        ((getLeaderboard st t).map (fun e => e.scoreVal)).Pairwise (fun a b => a ≤ b)) ∧
    ((t = "spinwheel" ∨ t = "typeracer" ∨ t = "cse17") →
        ((getLeaderboard st t).map (fun e => e.scoreVal)).Pairwise (fun a b => b ≤ a)) := by
  have htall : t ≠ "all" := by
    rcases ht with h | h | h | h | h <;> subst h <;> decide
  have hP : ∀ x ∈ List.insertionSort lbRel (collectLB st t),
      x.gameType = t ∧ 0 ≤ x.scoreVal := by
    intro x hx
    have hx2 := (List.mem_insertionSort lbRel).mp hx
    exact ⟨collectLB_gameType htall x hx2, hnn x hx2⟩
  have hpair : (List.insertionSort lbRel (collectLB st t)).Pairwise lbRel := by
    refine pairwise_insertionSort_on lbRel (fun x => x.gameType = t ∧ 0 ≤ x.scoreVal)
      ?_ ?_ (collectLB st t)
      (fun x hx => ⟨collectLB_gameType htall x hx, hnn x hx⟩)
    · intro a b hpa hpb hnab
      unfold lbRel at hnab ⊢
      have hrow : rowAsc b = rowAsc a := by
        unfold rowAsc
        rw [hpa.1, hpb.1]
      rw [hrow]
      by_cases hra : rowAsc a = true
      · rw [if_pos hra] at hnab ⊢
        exact le_of_not_le hnab
      · rw [if_neg hra] at hnab ⊢
        exact le_of_not_le hnab
    · intro a b c hpa hpb hpc hab hbc
      unfold lbRel at hab hbc ⊢
      have hrowb : rowAsc b = rowAsc a := by
        unfold rowAsc
        rw [hpa.1, hpb.1]
      rw [hrowb] at hbc
      by_cases hra : rowAsc a = true
      · rw [if_pos hra] at hab hbc ⊢
        exact le_trans hab hbc
      · rw [if_neg hra] at hab hbc ⊢
        exact le_trans hbc hab
  refine ⟨?_, ?_, ?_⟩
  · unfold getLeaderboard
    rw [assignRanksWith_map_rank (fun (e : LBEntry) n => { e with rank := n })
      (fun e => e.rank) (fun _ _ => rfl)]
    rw [assignRanksWith_length]
  · intro hd
    unfold getLeaderboard
    rw [assignRanksWith_map_other (fun (e : LBEntry) n => { e with rank := n })
      (fun e => e.scoreVal) (fun _ _ => rfl)]
    rw [List.pairwise_map]
    refine List.Pairwise.imp_of_mem ?_ hpair
    intro a b ha hb hab
    have hPa := hP a ha
    have hPb := hP b hb
    have hra : rowAsc a = true := by
      unfold rowAsc
      rw [hPa.1]
      rcases hd with h | h <;> rw [h] <;> decide
    unfold lbRel at hab
    rw [if_pos hra] at hab
    unfold scoreKey at hab
    rwa [abs_of_nonneg hPa.2, abs_of_nonneg hPb.2] at hab
  · intro hd
    unfold getLeaderboard
    rw [assignRanksWith_map_other (fun (e : LBEntry) n => { e with rank := n })
      (fun e => e.scoreVal) (fun _ _ => rfl)]
    rw [List.pairwise_map]
    refine List.Pairwise.imp_of_mem ?_ hpair
    intro a b ha hb hab
    have hPa := hP a ha
    have hPb := hP b hb
    have hra : ¬ rowAsc a = true := by
      unfold rowAsc
      rw [hPa.1]
      rcases hd with h | h | h <;> rw [h] <;> decide
    unfold lbRel at hab
    rw [if_neg hra] at hab
    unfold scoreKey at hab
    rwa [abs_of_nonneg hPa.2, abs_of_nonneg hPb.2] at hab

/-- Witness for C5 at a guessing-only store with scores 5 and 3: ranks
are 1, 2 and the attempt counts appear in ascending order. -/
theorem getLeaderboard_sorted_ranks_witness :
    ((getLeaderboard stGuessBoard "guessing").map (fun e => e.rank)
        = List.range' 1 (getLeaderboard stGuessBoard "guessing").length) ∧
    (("guessing" = "guessing" ∨ "guessing" = "redlight") →
        ((getLeaderboard stGuessBoard "guessing").map (fun e => e.scoreVal)).Pairwise
          (fun a b => a ≤ b)) ∧
    (("guessing" = "spinwheel" ∨ "guessing" = "typeracer" ∨ "guessing" = "cse17") →
        ((getLeaderboard stGuessBoard "guessing").map (fun e => e.scoreVal)).Pairwise
          (fun a b => b ≤ a)) :=
  getLeaderboard_sorted_ranks stGuessBoard "guessing" (Or.inl rfl) (by decide)

/-- C5 counterexample: with redlight times 2 and -3 stored, the returned
entries carry the displayed values 2 then -3 — not ascending by score
value, because the comparator strips the minus sign and sorts -3 as 3. -/
theorem getLeaderboard_negative_redlight_cex :
    (getLeaderboard stRedlightNeg "redlight").map (fun e => e.scoreVal) = [2, -3] ∧
    ¬ ((2 : ℚ) ≤ -3) := by
  constructor
  · norm_num [getLeaderboard, collectLB, entryOfScore, displayVal, toFixed1,
      stRedlightNeg, alice, assignRanksWith, lbRel, scoreKey, rowAsc,
      List.insertionSort, List.orderedInsert]
  · norm_num

/-- An entry built by getTypeRacerLeaderboard for a scores-Map slot names
the user found for that slot. -/
theorem trEntryFor_player {st : MemState} {p : Nat × List Score} {e : TREntry}
    (h : trEntryFor st p = some e) :
    ∃ u, st.users.find? (fun x => x.id = p.1) = some u ∧ e.player = u.username := by
  unfold trEntryFor at h
  revert h
  cases hu : st.users.find? (fun x => x.id = p.1) with
  | none => intro h; cases h
  | some user =>
      cases hf : p.2.filter (scoreHasType st "typeracer") with
      | nil => intro h; cases h
      | cons s0 rest =>
          intro h
          dsimp only at h
          cases h
          exact ⟨user, rfl, rfl⟩

/-- An entry built by getTypeRacerLeaderboard carries Math.round of the
maximum typeracer value of that slot. -/
theorem trEntryFor_wpm {st : MemState} {p : Nat × List Score} {e : TREntry}
    (h : trEntryFor st p = some e) :
    ∃ b ∈ (p.2.filter (scoreHasType st "typeracer")).map (fun s => s.value),
      e.wpm = jsRound b ∧
      ∀ v ∈ (p.2.filter (scoreHasType st "typeracer")).map (fun s => s.value),
        v ≤ b := by
  unfold trEntryFor at h
  revert h
  cases hu : st.users.find? (fun x => x.id = p.1) with
  | none => intro h; cases h
  | some user =>
      cases hf : p.2.filter (scoreHasType st "typeracer") with
      | nil => intro h; cases h
      | cons s0 rest =>
          intro h
          dsimp only at h
          cases h
          rcases foldl_best_spec (s0 :: rest) s0 with ⟨hmem, hle, hall⟩
          refine ⟨((s0 :: rest).foldl (fun b c => if b.value < c.value then c else b) s0).value,
            ?_, rfl, ?_⟩
          · rcases hmem with hmem | hmem
            · rw [hmem]
              exact List.mem_map_of_mem _ (List.mem_cons_self s0 rest)
            · exact List.mem_map_of_mem _ hmem
          · intro v hv
            rcases List.mem_map.mp hv with ⟨c, hc, rfl⟩
            exact hall c hc

/-- With distinct scores-Map keys and distinct usernames, the collected
typeracer leaderboard entries name pairwise distinct players. -/
theorem collectTR_players_nodup (st : MemState)
    (hnames : (st.users.map (fun u => u.username)).Nodup) :
    ∀ (l : List (Nat × List Score)), (l.map Prod.fst).Nodup →
      ((l.filterMap (trEntryFor st)).map (fun e => e.player)).Nodup := by
  intro l
  induction l with
  | nil => intro _; simp
  | cons p rest ih =>
      intro hnd
      rw [List.map_cons, List.nodup_cons] at hnd
      obtain ⟨hnotin, hrest⟩ := hnd
      rw [List.filterMap_cons]
      cases hp : trEntryFor st p with
      | none => exact ih hrest
      | some e =>
          rw [List.map_cons, List.nodup_cons]
          refine ⟨?_, ih hrest⟩
          intro hmem
          rcases List.mem_map.mp hmem with ⟨e2, he2mem, hpe⟩
          rcases List.mem_filterMap.mp he2mem with ⟨q, hq, hq2⟩
          rcases trEntryFor_player hp with ⟨u1, hu1, hpl1⟩
          rcases trEntryFor_player hq2 with ⟨u2, hu2, hpl2⟩
          have hid1 : u1.id = p.1 := by simpa using List.find?_some hu1
          have hid2 : u2.id = q.1 := by simpa using List.find?_some hu2
          have husername : u2.username = u1.username := by
            rw [← hpl1, ← hpl2, hpe]
          have hueq : u2 = u1 :=
            List.inj_on_of_nodup_map hnames (List.mem_of_find?_eq_some hu2)
              (List.mem_of_find?_eq_some hu1) husername
          have hkey : p.1 = q.1 := by
            rw [← hid1, ← hid2, hueq]
          rw [hkey] at hnotin
          exact hnotin (List.mem_map_of_mem Prod.fst hq)

/-- C9 amended: provided the scores-Map keys and the usernames are
pairwise distinct (JS Map keys are unique; registration enforces unique
usernames), the typeracer leaderboard has at most one entry per player,
its entries are sorted descending by their wpm field, and each real
entry carries Math.round of the maximum WPM that user submitted — equal
to the maximum itself whenever all submitted WPM values are integers. -/
theorem typeracer_leaderboard_props (st : MemState)
    (hkeys : (st.scores.map Prod.fst).Nodup)
    (hnames : (st.users.map (fun u => u.username)).Nodup) :
    ((getTypeRacerLeaderboard st).map (fun e => e.player)).Nodup ∧
    ((getTypeRacerLeaderboard st).map (fun e => e.wpm)).Pairwise (fun a b => b ≤ a) ∧
    (∀ p ∈ st.scores, ∀ e, trEntryFor st p = some e →
        ∃ b ∈ (p.2.filter (scoreHasType st "typeracer")).map (fun s => s.value),
          e.wpm = jsRound b ∧
          ∀ v ∈ (p.2.filter (scoreHasType st "typeracer")).map (fun s => s.value),
            v ≤ b) := by
  refine ⟨?_, ?_, ?_⟩
  · unfold getTypeRacerLeaderboard
    by_cases he : (trRanked st).isEmpty
    · rw [if_pos he]
      decide
    · rw [if_neg he]
      unfold trRanked
      rw [assignRanksWith_map_other (fun (e : TREntry) n => { e with rank := n })
        (fun e => e.player) (fun _ _ => rfl)]
      have hperm :=
        List.Perm.map (fun e : TREntry => e.player)
          (List.perm_insertionSort trRel (collectTR st))
      rw [hperm.nodup_iff]
      exact collectTR_players_nodup st hnames st.scores hkeys
  · unfold getTypeRacerLeaderboard
    by_cases he : (trRanked st).isEmpty
    · rw [if_pos he]
      decide
    · rw [if_neg he]
      unfold trRanked
      rw [assignRanksWith_map_other (fun (e : TREntry) n => { e with rank := n })
        (fun e => e.wpm) (fun _ _ => rfl)]
      rw [List.pairwise_map]
      exact List.sorted_insertionSort trRel (collectTR st)
  · intro p hp e he
    exact trEntryFor_wpm he

/-- Witness for C9 at a store with typeracer scores 60 for alice and 80
for bob. -/
theorem typeracer_leaderboard_props_witness :
    ((getTypeRacerLeaderboard stTRBoard).map (fun e => e.player)).Nodup ∧
    ((getTypeRacerLeaderboard stTRBoard).map (fun e => e.wpm)).Pairwise
      (fun a b => b ≤ a) ∧
    (∀ p ∈ stTRBoard.scores, ∀ e, trEntryFor stTRBoard p = some e →
        ∃ b ∈ (p.2.filter (scoreHasType stTRBoard "typeracer")).map (fun s => s.value),
          e.wpm = jsRound b ∧
          ∀ v ∈ (p.2.filter (scoreHasType stTRBoard "typeracer")).map (fun s => s.value),
            v ≤ b) :=
  typeracer_leaderboard_props stTRBoard (by decide) (by decide)

/-- C9 counterexample: after a single submission of 72.5 WPM the
leaderboard entry shows 73 (Math.round of the maximum), which differs
from the maximum WPM 72.5 the user ever submitted. -/
theorem typeracer_rounding_cex :
    (getTypeRacerLeaderboard stTRHalf).map (fun e => e.wpm) = [73] ∧
    (getAssoc stTRHalf.scores 1).map (fun l => l.map (fun s => s.value))
      = some [145/2] ∧
    ((73 : ℤ) : ℚ) ≠ 145/2 := by
  refine ⟨?_, ?_, by norm_num⟩
  · norm_num [getTypeRacerLeaderboard, trRanked, collectTR, trEntryFor,
      scoreHasType, jsRound, stTRHalf, alice, assignRanksWith, trRel,
      List.insertionSort, List.orderedInsert, List.filterMap_cons]
  · norm_num [stTRHalf, getAssoc]

end GameClub
